import Mathlib

/-!
Shallow embedding of the LofiFlow EQ/preview components
(src/components/SoundEQPanel.tsx, VolumeSlider.tsx, AddSoundPanel.tsx).
Numbers are modelled as real numbers; `Math.log10` as `Real.logb 10`,
`Math.exp` as `Real.exp`, `Math.pow 10 x` as real exponentiation.
-/

namespace LofiFlow

/-- The `type` field of an `EQBand` in the TSX sources:
`'lowshelf' | 'peaking' | 'highshelf'`. -/
inductive FilterType
| lowshelf
| peaking
| highshelf
deriving DecidableEq

/-- `interface EQBand` (SoundEQPanel.tsx / VolumeSlider.tsx):
`frequency`, `gain`, `Q`, `type`. -/
structure EQBand where
  frequency : ℝ
  gain : ℝ
  Q : ℝ
  type : FilterType

/-- `interface EQBand` of the `EQPanel` component (VolumeSlider.tsx, second
component): same fields plus a display `name`. -/
structure NamedEQBand where
  name : String
  frequency : ℝ
  gain : ℝ
  Q : ℝ
  type : FilterType

/-- Forget the display name of a `NamedEQBand`. -/
def NamedEQBand.toBand (b : NamedEQBand) : EQBand :=
  ⟨b.frequency, b.gain, b.Q, b.type⟩

/-- `Math.log10`. -/
noncomputable def log10 (x : ℝ) : ℝ := Real.logb 10 x

/-- Per-band contribution `gainAtFreq` of the EQ-curve loop
(SoundEQPanel.tsx lines 118-138): branches on `band.type`. -/
noncomputable def bandGainAt (band : EQBand) (freq : ℝ) : ℝ :=
  match band.type with
  | .lowshelf =>
      let r := band.frequency / freq
      band.gain * r / (1 + r)
  | .highshelf =>
      let r := freq / band.frequency
      band.gain * r / (1 + r)
  | .peaking =>
      let bandwidth := band.frequency / band.Q
      let dist := |log10 freq - log10 band.frequency|
      let octaves := dist / log10 2
      band.gain * Real.exp (-0.5 * (octaves / (bandwidth / band.frequency)) ^ 2)

/-- The `totalGain` accumulation of SoundEQPanel.tsx lines 116-139:
`let totalGain = 0; eqBands.forEach(band => { ... totalGain += gainAtFreq })`. -/
noncomputable def totalGain_SoundEQPanel (bands : List EQBand) (freq : ℝ) : ℝ :=
  bands.foldl (fun acc band => acc + bandGainAt band freq) 0

/-- The `totalGain` accumulation of VolumeSlider.tsx lines 133-156
(the `VolumeSlider` component); textually identical loop body. -/
noncomputable def totalGain_VolumeSlider (bands : List EQBand) (freq : ℝ) : ℝ :=
  bands.foldl (fun acc band => acc + bandGainAt band freq) 0

/-- Per-band contribution of the `EQPanel` curve loop (VolumeSlider.tsx
lines 629-653), which runs over `NamedEQBand`s; the loop body reads only
`frequency`, `gain`, `Q`, `type`. -/
noncomputable def namedBandGainAt (band : NamedEQBand) (freq : ℝ) : ℝ :=
  match band.type with
  | .lowshelf =>
      let r := band.frequency / freq
      band.gain * r / (1 + r)
  | .highshelf =>
      let r := freq / band.frequency
      band.gain * r / (1 + r)
  | .peaking =>
      let bandwidth := band.frequency / band.Q
      let dist := |log10 freq - log10 band.frequency|
      let octaves := dist / log10 2
      band.gain * Real.exp (-0.5 * (octaves / (bandwidth / band.frequency)) ^ 2)

/-- The `totalGain` accumulation of the `EQPanel` component
(VolumeSlider.tsx lines 627-653). -/
noncomputable def totalGain_EQPanel (bands : List NamedEQBand) (freq : ℝ) : ℝ :=
  bands.foldl (fun acc band => acc + namedBandGainAt band freq) 0

/-- The five fixed band slots of the components' initial state
(SoundEQPanel.tsx lines 31-37), with slot gains and Q left symbolic:
lowshelf@100, peaking@400, peaking@1000, peaking@2500, highshelf@8000. -/
def slotBands (g1 g2 g3 g4 g5 q1 q2 q3 q4 q5 : ℝ) : List EQBand :=
  [⟨100, g1, q1, .lowshelf⟩,
   ⟨400, g2, q2, .peaking⟩,
   ⟨1000, g3, q3, .peaking⟩,
   ⟨2500, g4, q4, .peaking⟩,
   ⟨8000, g5, q5, .highshelf⟩]

/-- The default band state (all gains 0, all Q = 1). -/
def defaultBands : List EQBand := slotBands 0 0 0 0 0 1 1 1 1 1

/-- The evaluation frequency of pixel `px` in the curve loop
(SoundEQPanel.tsx lines 110-114):
`freq = 10 ^ (log10 20 + (px/width) * (log10 20000 - log10 20))`. -/
noncomputable def pixelFreq (px width : ℕ) : ℝ :=
  (10 : ℝ) ^ (log10 20 + ((px : ℝ) / (width : ℝ)) * (log10 20000 - log10 20))

/-! ### Spec-side aggregate response (for the refinement claim C1)

These definitions follow the wording of the specification (spec §4.2),
not the source; they are compared with the source-derived `totalGain`. -/

/-- Spec wording: lowshelf `gain = g · r/(1+r)`, `r = bandFreq/f`. -/
noncomputable def specLowshelf (g bf f : ℝ) : ℝ := g * (bf / f) / (1 + bf / f)

/-- Spec wording: highshelf `gain = g · r/(1+r)`, `r = f/bandFreq`. -/
noncomputable def specHighshelf (g bf f : ℝ) : ℝ := g * (f / bf) / (1 + f / bf)

/-- Spec wording: peaking `bandwidth = bandFreq/Q`;
`octaves = |log2(f/bandFreq)|`;
`gain = g · exp(-0.5 · (octaves / (bandwidth/bandFreq))²)`. -/
noncomputable def specPeaking (g bf q f : ℝ) : ℝ :=
  g * Real.exp (-0.5 * (|Real.logb 2 (f / bf)| / ((bf / q) / bf)) ^ 2)

/-- Spec wording: total response at `f` is the sum over the 5 fixed slots. -/
noncomputable def specAggregate (g1 g2 g3 g4 g5 q1 q2 q3 q4 q5 f : ℝ) : ℝ :=
  specLowshelf g1 100 f + specPeaking g2 400 q2 f + specPeaking g3 1000 q3 f +
    specPeaking g4 2500 q4 f + specHighshelf g5 8000 f

/-! ### State updates (handleEQChange / applyEQPreset, engine side) -/

/-- `handleEQChange` state update (SoundEQPanel.tsx lines 48-53):
`const newBands = [...eqBands]; newBands[bandIndex].gain = gain`.
Out-of-range indices never occur in the component (indices 0..4 over a
5-element state); they leave the list unchanged here. -/
def setBandGain : List EQBand → ℕ → ℝ → List EQBand
  | [], _, _ => []
  | b :: bs, 0, g => { b with gain := g } :: bs
  | b :: bs, n + 1, g => b :: setBandGain bs n g

/-- Helper for `applyPresetLocal`: `eqBands.map((band, i) => ...)` with the
running index made explicit. -/
def applyPresetFrom (i : ℕ) : List EQBand → List ℝ → List EQBand
  | [], _ => []
  | b :: bs, gains => { b with gain := gains.getD i 0 } :: applyPresetFrom (i + 1) bs gains

/-- `applyEQPreset` local state update (SoundEQPanel.tsx lines 55-57):
`eqBands.map((band, i) => ({ ...band, gain: preset.gains[i] }))`, one
`setEqBands` call with the whole new array. -/
def applyPresetLocal (bands : List EQBand) (gains : List ℝ) : List EQBand :=
  applyPresetFrom 0 bands gains

/-- Modelled from the spec: the engine's clamp of an incoming `gainDb` to
`[-12, 12]` (`SpatialAudioEngine.setEQBand` is not among the source files;
spec §4.2 "clamps to [-12,12]", §3 "gain values are always clamped", §7
"OutOfRangeParameter ... always silently clamped"). -/
noncomputable def clampGain (g : ℝ) : ℝ := max (-12) (min 12 g)

/-- Modelled from the spec: the effect of one `engine.setEQBand(soundId, i,
gain)` call on the engine's 5-gain record for the sound — the slot is set to
the clamped gain (`SpatialAudioEngine` is not among the source files). -/
noncomputable def setEQBandEngine (s : List ℝ) (i : ℕ) (g : ℝ) : List ℝ :=
  s.set i (clampGain g)

/-- The sequence of engine states visited by the
`preset.gains.forEach((gain, i) => engine.setEQBand(soundId, i, gain))`
loop of `applyEQPreset` (SoundEQPanel.tsx lines 58-60), starting state
included. -/
noncomputable def presetEngineTraceFrom (s : List ℝ) (i : ℕ) : List ℝ → List (List ℝ)
  | [] => [s]
  | g :: gs => s :: presetEngineTraceFrom (setEQBandEngine s i g) (i + 1) gs

/-- All engine states visited while `applyEQPreset` runs its forEach loop. -/
noncomputable def presetEngineTrace (prev gains : List ℝ) : List (List ℝ) :=
  presetEngineTraceFrom prev 0 gains

/-- Engine state after the forEach loop of `applyEQPreset` completes. -/
noncomputable def applyPresetEngineFrom (s : List ℝ) (i : ℕ) : List ℝ → List ℝ
  | [] => s
  | g :: gs => applyPresetEngineFrom (setEQBandEngine s i g) (i + 1) gs

/-- Final engine state produced by `applyEQPreset`'s engine calls. -/
noncomputable def applyPresetEngine (prev gains : List ℝ) : List ℝ :=
  applyPresetEngineFrom prev 0 gains

/-- The individual `engine.setEQBand` calls (slot, gain) issued by
`applyEQPreset`: one per element of `preset.gains`. -/
def presetEngineCalls (gains : List ℝ) : List (ℕ × ℝ) := gains.enum

/-- The frame (non-gain) fields of a band. -/
def bandFrame (b : EQBand) : ℝ × ℝ × FilterType := (b.frequency, b.Q, b.type)

/-! ### AddSoundPanel file selection -/

/-- The part of a DOM `File` object read by `handleFileSelect`:
MIME `type` and file `name`. -/
structure JSFile where
  mime : String
  fname : String
deriving DecidableEq

/-- The component state touched by `handleFileSelect`: the `name` text
field and the pending `audioFile`. -/
structure AddSoundState where
  sname : String
  audioFile : Option JSFile
deriving DecidableEq

/-- Index (from the front) of the last `.` in a character list, if any. -/
def lastDotIdx : List Char → Option ℕ
  | [] => none
  | c :: cs =>
    match lastDotIdx cs with
    | some i => some (i + 1)
    | none => if c = '.' then some 0 else none

/-- `file.name.replace(/\.[^/.]+$/, "")` (AddSoundPanel.tsx line 32): strip a
trailing `.ext` where `ext` is nonempty and contains no `/` or `.`. -/
def stripExt (s : String) : String :=
  let cs := s.data
  match lastDotIdx cs with
  | none => s
  | some i =>
    let suf := cs.drop (i + 1)
    if suf ≠ [] ∧ suf.all (fun c => c ≠ '.' && c ≠ '/') then ⟨cs.take i⟩ else s

/-- `String.startsWith` on the character-list representation of strings:
`s.startsWith pre` holds when `pre`'s characters are an initial segment of
`s`'s. -/
def strStartsWith (s pre : String) : Bool := pre.data.isPrefixOf s.data

/-- `handleFileSelect` (AddSoundPanel.tsx lines 27-36): accept the file only
when present and of MIME type `audio/*`; default the name from the file
name when the name field is empty. -/
def handleFileSelect (st : AddSoundState) (file : Option JSFile) : AddSoundState :=
  match file with
  | none => st
  | some f =>
    if strStartsWith f.mime "audio/" then
      let st1 : AddSoundState := { st with audioFile := some f }
      if st.sname = "" then { st1 with sname := stripExt f.fname } else st1
    else st

/-! ### Helper lemmas -/

/-- The per-type unfolding of `bandGainAt` for a lowshelf band. -/
lemma bandGainAt_lowshelf (bf g q f : ℝ) :
    bandGainAt ⟨bf, g, q, .lowshelf⟩ f = g * (bf / f) / (1 + bf / f) := rfl

/-- The per-type unfolding of `bandGainAt` for a highshelf band. -/
lemma bandGainAt_highshelf (bf g q f : ℝ) :
    bandGainAt ⟨bf, g, q, .highshelf⟩ f = g * (f / bf) / (1 + f / bf) := rfl

/-- The per-type unfolding of `bandGainAt` for a peaking band. -/
lemma bandGainAt_peaking (bf g q f : ℝ) :
    bandGainAt ⟨bf, g, q, .peaking⟩ f =
      g * Real.exp (-0.5 * ((|log10 f - log10 bf| / log10 2) / (bf / q / bf)) ^ 2) := rfl

/-- The `totalGain` accumulation is the sum of the per-band contributions. -/
lemma totalGain_eq_sum (bands : List EQBand) (f : ℝ) :
    totalGain_SoundEQPanel bands f = (bands.map (fun b => bandGainAt b f)).sum := by
  rw [totalGain_SoundEQPanel]
  suffices h : ∀ acc : ℝ, bands.foldl (fun acc band => acc + bandGainAt band f) acc =
      acc + (bands.map (fun b => bandGainAt b f)).sum by
    simpa using h 0
  induction bands with
  | nil => intro acc; simp
  | cons b bs ih => intro acc; simp [List.foldl_cons, ih, add_assoc]

/-- The curve loop contribution does not depend on the display name. -/
lemma bandGainAt_toBand (nb : NamedEQBand) (f : ℝ) :
    bandGainAt nb.toBand f = namedBandGainAt nb f := by
  cases h : nb.type <;> simp [bandGainAt, namedBandGainAt, NamedEQBand.toBand, h]

/-- Accumulator form of the EQPanel/SoundEQPanel loop agreement. -/
lemma eqp_foldl_eq (nbands : List NamedEQBand) (f : ℝ) : ∀ acc : ℝ,
    (nbands.map NamedEQBand.toBand).foldl (fun a band => a + bandGainAt band f) acc =
      nbands.foldl (fun a band => a + namedBandGainAt band f) acc := by
  induction nbands with
  | nil => intro acc; rfl
  | cons nb nbs ih =>
    intro acc
    simp only [List.map_cons, List.foldl_cons, bandGainAt_toBand]
    exact ih _

/-- A list of length 5 is a quintuple. -/
lemma five_dest {α : Type} {l : List α} (h : l.length = 5) :
    ∃ a b c d e, l = [a, b, c, d, e] := by
  rcases l with _ | ⟨a, _ | ⟨b, _ | ⟨c, _ | ⟨d, _ | ⟨e, _ | ⟨x, t⟩⟩⟩⟩⟩⟩
  · simp at h
  · simp at h
  · simp at h
  · simp at h
  · simp at h
  · exact ⟨a, b, c, d, e, rfl⟩
  · simp at h

/-- `applyPresetFrom` is idempotent at every starting index. -/
lemma applyPresetFrom_idem (bands : List EQBand) (gains : List ℝ) :
    ∀ i, applyPresetFrom i (applyPresetFrom i bands gains) gains =
      applyPresetFrom i bands gains := by
  induction bands with
  | nil => intro i; rfl
  | cons b bs ih => intro i; simp [applyPresetFrom, ih]

/-- Fully applying a 5-gain preset to a 5-gain engine record yields the
preset's gains, each clamped by the engine. -/
lemma applyPresetEngine_five (a b c d e g1 g2 g3 g4 g5 : ℝ) :
    applyPresetEngine [a, b, c, d, e] [g1, g2, g3, g4, g5] =
      [clampGain g1, clampGain g2, clampGain g3, clampGain g4, clampGain g5] := rfl

/-- `setBandGain` preserves the list length. -/
lemma setBandGain_length (bands : List EQBand) :
    ∀ (i : ℕ) (g : ℝ), (setBandGain bands i g).length = bands.length := by
  induction bands with
  | nil => intro i g; rfl
  | cons b bs ih =>
    intro i g
    cases i with
    | zero => rfl
    | succ n => simp [setBandGain, ih]

/-- `setBandGain` preserves every band's frequency, Q and filter type. -/
lemma setBandGain_frame (bands : List EQBand) :
    ∀ (i : ℕ) (g : ℝ), (setBandGain bands i g).map bandFrame = bands.map bandFrame := by
  induction bands with
  | nil => intro i g; rfl
  | cons b bs ih =>
    intro i g
    cases i with
    | zero => rfl
    | succ n => simp [setBandGain, ih, bandFrame]

/-- `applyPresetFrom` preserves the list length. -/
lemma applyPresetFrom_length (bands : List EQBand) (gains : List ℝ) :
    ∀ i, (applyPresetFrom i bands gains).length = bands.length := by
  induction bands with
  | nil => intro i; rfl
  | cons b bs ih => intro i; simp [applyPresetFrom, ih]

/-- `applyPresetFrom` preserves every band's frequency, Q and filter type. -/
lemma applyPresetFrom_frame (bands : List EQBand) (gains : List ℝ) :
    ∀ i, (applyPresetFrom i bands gains).map bandFrame = bands.map bandFrame := by
  induction bands with
  | nil => intro i; rfl
  | cons b bs ih => intro i; simp [applyPresetFrom, ih, bandFrame]

/-! ### Claims -/

/-- C2: the three per-frequency aggregate-response computations duplicated in
`SoundEQPanel`, `VolumeSlider` and `EQPanel` are extensionally equal: on any
identical list of EQ bands and any frequency `f > 0` all three compute the
same total gain. -/
theorem c2_three_curves_agree (nbands : List NamedEQBand) (f : ℝ) (hf : 0 < f) :
    totalGain_SoundEQPanel (nbands.map NamedEQBand.toBand) f =
        totalGain_VolumeSlider (nbands.map NamedEQBand.toBand) f ∧
      totalGain_VolumeSlider (nbands.map NamedEQBand.toBand) f =
        totalGain_EQPanel nbands f := by
  refine ⟨rfl, ?_⟩
  simp only [totalGain_VolumeSlider, totalGain_EQPanel]
  exact eqp_foldl_eq nbands f 0

/-- Witness for C2 at a concrete band list and frequency. -/
theorem c2_three_curves_agree_witness :
    (0 : ℝ) < 1000 ∧
    (totalGain_SoundEQPanel ([⟨"Low", 100, 3, 1, .lowshelf⟩].map NamedEQBand.toBand) 1000 =
        totalGain_VolumeSlider ([⟨"Low", 100, 3, 1, .lowshelf⟩].map NamedEQBand.toBand) 1000 ∧
      totalGain_VolumeSlider ([⟨"Low", 100, 3, 1, .lowshelf⟩].map NamedEQBand.toBand) 1000 =
        totalGain_EQPanel [⟨"Low", 100, 3, 1, .lowshelf⟩] 1000) :=
  ⟨by norm_num, c2_three_curves_agree [⟨"Low", 100, 3, 1, .lowshelf⟩] 1000 (by norm_num)⟩

/-- C5: applying the same preset twice (to the component's band state and to
the engine's per-sound gain record) produces the same state as applying it
once. -/
theorem c5_preset_idempotent (bands : List EQBand) (prev gains : List ℝ)
    (hp : prev.length = 5) (hg : gains.length = 5) :
    applyPresetLocal (applyPresetLocal bands gains) gains = applyPresetLocal bands gains ∧
      applyPresetEngine (applyPresetEngine prev gains) gains = applyPresetEngine prev gains := by
  constructor
  · exact applyPresetFrom_idem bands gains 0
  · obtain ⟨a, b, c, d, e, rfl⟩ := five_dest hp
    obtain ⟨x1, x2, x3, x4, x5, rfl⟩ := five_dest hg
    rfl

/-- Witness for C5 with the Bass Boost gains. -/
theorem c5_preset_idempotent_witness :
    ([(0 : ℝ), 0, 0, 0, 0].length = 5) ∧ ([(6 : ℝ), 3, 0, -2, -2].length = 5) ∧
    (applyPresetLocal (applyPresetLocal defaultBands [6, 3, 0, -2, -2]) [6, 3, 0, -2, -2] =
        applyPresetLocal defaultBands [6, 3, 0, -2, -2] ∧
      applyPresetEngine (applyPresetEngine [0, 0, 0, 0, 0] [6, 3, 0, -2, -2]) [6, 3, 0, -2, -2] =
        applyPresetEngine [0, 0, 0, 0, 0] [6, 3, 0, -2, -2]) :=
  ⟨rfl, rfl, c5_preset_idempotent defaultBands [0, 0, 0, 0, 0] [6, 3, 0, -2, -2] rfl rfl⟩

/-- C6: both EQ state updates keep the band count at 5 and leave every band's
frequency, Q and filter type unchanged; only gains move. -/
theorem c6_updates_preserve_frame (bands : List EQBand) (i : ℕ) (g : ℝ)
    (gains : List ℝ) (h5 : bands.length = 5) :
    ((setBandGain bands i g).length = 5 ∧
      (setBandGain bands i g).map bandFrame = bands.map bandFrame) ∧
    ((applyPresetLocal bands gains).length = 5 ∧
      (applyPresetLocal bands gains).map bandFrame = bands.map bandFrame) := by
  refine ⟨⟨?_, setBandGain_frame bands i g⟩, ⟨?_, applyPresetFrom_frame bands gains 0⟩⟩
  · rw [setBandGain_length]; exact h5
  · rw [applyPresetLocal, applyPresetFrom_length]; exact h5

/-- Witness for C6 at the default band state. -/
theorem c6_updates_preserve_frame_witness :
    defaultBands.length = 5 ∧
    (((setBandGain defaultBands 0 6).length = 5 ∧
        (setBandGain defaultBands 0 6).map bandFrame = defaultBands.map bandFrame) ∧
      ((applyPresetLocal defaultBands [6, 3, 0, -2, -2]).length = 5 ∧
        (applyPresetLocal defaultBands [6, 3, 0, -2, -2]).map bandFrame =
          defaultBands.map bandFrame)) :=
  ⟨rfl, c6_updates_preserve_frame defaultBands 0 6 [6, 3, 0, -2, -2] rfl⟩

/-- C7: `handleFileSelect` sets the pending audio file exactly for a present
file of MIME type `audio/*`; a missing file or a non-audio MIME type leaves
the whole state unchanged (and the function is total, so no crash). -/
theorem c7_file_select_filters_audio (st : AddSoundState) (file : Option JSFile) :
    (∀ f, file = some f → strStartsWith f.mime "audio/" = true →
      (handleFileSelect st file).audioFile = some f) ∧
    (∀ f, file = some f → strStartsWith f.mime "audio/" = false →
      handleFileSelect st file = st) ∧
    (file = none → handleFileSelect st file = st) := by
  refine ⟨?_, ?_, ?_⟩
  · intro f hf haudio
    subst hf
    simp only [handleFileSelect, haudio, if_true]
    by_cases hname : st.sname = "" <;> simp [hname]
  · intro f hf haudio
    subst hf
    simp [handleFileSelect, haudio]
  · intro hf
    subst hf
    rfl

/-- Witness for C7: an audio file is accepted, a non-audio file and a missing
file leave the state unchanged. -/
theorem c7_file_select_filters_audio_witness :
    (handleFileSelect ⟨"", none⟩ (some ⟨"audio/mpeg", "rain.mp3"⟩)).audioFile =
        some ⟨"audio/mpeg", "rain.mp3"⟩ ∧
      handleFileSelect ⟨"x", none⟩ (some ⟨"image/png", "y.png"⟩) = ⟨"x", none⟩ ∧
      handleFileSelect ⟨"x", some ⟨"audio/ogg", "z.ogg"⟩⟩ none =
        ⟨"x", some ⟨"audio/ogg", "z.ogg"⟩⟩ :=
  ⟨(c7_file_select_filters_audio ⟨"", none⟩ _).1 _ rfl (by decide),
   (c7_file_select_filters_audio ⟨"x", none⟩ _).2.1 _ rfl (by decide),
   (c7_file_select_filters_audio ⟨"x", some ⟨"audio/ogg", "z.ogg"⟩⟩ _).2.2 rfl⟩

/-- C3 counterexample: applying the Bass Boost gains over the engine issues
five separate `setEQBand` calls (not one update), and the engine state after
the first call — which is in the visited-state trace — has band 0 at the
preset's gain while band 1 still carries the previous gain. -/
theorem c3_counterexample_not_atomic :
    (presetEngineCalls [(6 : ℝ), 3, 0, -2, -2]).length = 5 ∧
    (presetEngineCalls [(6 : ℝ), 3, 0, -2, -2]).length ≠ 1 ∧
    [(6 : ℝ), 0, 0, 0, 0] ∈ presetEngineTrace [0, 0, 0, 0, 0] [6, 3, 0, -2, -2] ∧
    ([(6 : ℝ), 0, 0, 0, 0].getD 0 0 = [(6 : ℝ), 3, 0, -2, -2].getD 0 0 ∧
      [(6 : ℝ), 0, 0, 0, 0].getD 1 0 = [(0 : ℝ), 0, 0, 0, 0].getD 1 0 ∧
      [(6 : ℝ), 0, 0, 0, 0].getD 1 0 ≠ [(6 : ℝ), 3, 0, -2, -2].getD 1 0) := by
  have h5 : (presetEngineCalls [(6 : ℝ), 3, 0, -2, -2]).length = 5 := rfl
  refine ⟨h5, by rw [h5]; decide, ?_, rfl, rfl, by norm_num⟩
  have hclamp : clampGain 6 = 6 := by
    rw [clampGain]; norm_num
  have h1 : presetEngineTrace [(0 : ℝ), 0, 0, 0, 0] [6, 3, 0, -2, -2] =
      [(0 : ℝ), 0, 0, 0, 0] ::
        presetEngineTraceFrom [clampGain 6, 0, 0, 0, 0] 1 [3, 0, -2, -2] := rfl
  rw [h1, hclamp]
  exact List.mem_cons_of_mem _ (List.mem_cons_self _ _)

/-- C3 as amended: `applyEQPreset` issues one engine call per band; after the
last call the engine record carries exactly the preset's five gains, each
clamped to `[-12, 12]` by the engine, and the component's local state is
replaced in a single update whose five gains are the preset's. -/
theorem c3_preset_final_state (bands : List EQBand) (prev gains : List ℝ)
    (hb : bands.length = 5) (hp : prev.length = 5) (hg : gains.length = 5) :
    applyPresetEngine prev gains = gains.map clampGain ∧
      (applyPresetLocal bands gains).map EQBand.gain = gains := by
  obtain ⟨a, b, c, d, e, rfl⟩ := five_dest hp
  obtain ⟨x1, x2, x3, x4, x5, rfl⟩ := five_dest hg
  obtain ⟨b1, b2, b3, b4, b5, rfl⟩ := five_dest hb
  exact ⟨rfl, rfl⟩

/-- Witness for the amended C3 with the Bass Boost gains, whose five values
are all inside `[-12, 12]` and hence unchanged by the engine's clamp. -/
theorem c3_preset_final_state_witness :
    defaultBands.length = 5 ∧ ([(0 : ℝ), 0, 0, 0, 0].length = 5) ∧
    ([(6 : ℝ), 3, 0, -2, -2].length = 5) ∧
    ([(6 : ℝ), 3, 0, -2, -2].map clampGain = [6, 3, 0, -2, -2]) ∧
    (applyPresetEngine [0, 0, 0, 0, 0] [6, 3, 0, -2, -2] =
        [(6 : ℝ), 3, 0, -2, -2].map clampGain ∧
      (applyPresetLocal defaultBands [6, 3, 0, -2, -2]).map EQBand.gain =
        [6, 3, 0, -2, -2]) :=
  ⟨rfl, rfl, rfl, by simp [clampGain]; norm_num,
   c3_preset_final_state defaultBands [0, 0, 0, 0, 0] [6, 3, 0, -2, -2] rfl rfl rfl⟩

/-- A band whose gain is 0 contributes 0 to the curve. -/
lemma bandGainAt_zero_gain (b : EQBand) (hg : b.gain = 0) (f : ℝ) :
    bandGainAt b f = 0 := by
  cases ht : b.type <;> simp [bandGainAt, ht, hg]

/-- C8: with all band gains 0, the aggregate response is 0 dB at every
frequency `f > 0`. -/
theorem c8_flat_response_zero (bands : List EQBand) (f : ℝ) (hf : 0 < f)
    (hz : ∀ b ∈ bands, b.gain = 0) : totalGain_SoundEQPanel bands f = 0 := by
  rw [totalGain_eq_sum]
  apply List.sum_eq_zero
  intro x hx
  simp only [List.mem_map] at hx
  obtain ⟨b, hb, rfl⟩ := hx
  exact bandGainAt_zero_gain b (hz b hb) f

/-- Witness for C8 at the default (all-zero) bands and 440 Hz. -/
theorem c8_flat_response_zero_witness :
    (0 : ℝ) < 440 ∧ totalGain_SoundEQPanel defaultBands 440 = 0 :=
  ⟨by norm_num,
   c8_flat_response_zero defaultBands 440 (by norm_num) (by
     intro b hb
     simp only [defaultBands, slotBands, List.mem_cons, List.not_mem_nil, or_false] at hb
     rcases hb with rfl | rfl | rfl | rfl | rfl <;> rfl)⟩

/-- The code's octave count `|log10 f − log10 bf| / log10 2` equals the
spec's `|log2 (f / bf)|` for positive `f` and `bf`. -/
lemma octaves_eq {f bf : ℝ} (hf : 0 < f) (hbf : 0 < bf) :
    |log10 f - log10 bf| / log10 2 = |Real.logb 2 (f / bf)| := by
  have h10 : (0 : ℝ) < Real.log 10 := Real.log_pos (by norm_num)
  have h2 : (0 : ℝ) < Real.log 2 := Real.log_pos (by norm_num)
  simp only [log10, Real.logb]
  rw [Real.log_div hf.ne' hbf.ne', div_sub_div_same, abs_div, abs_of_pos h10,
    abs_div, abs_of_pos h2]
  field_simp

/-- C1: on the five fixed slots with arbitrary gains and Q, the EQ-curve
code's aggregate gain at any frequency `f > 0` equals the spec's formula
(sum of the shelf terms and `exp`-shaped peaking terms). -/
theorem c1_curve_matches_spec (g1 g2 g3 g4 g5 q1 q2 q3 q4 q5 f : ℝ) (hf : 0 < f) :
    totalGain_SoundEQPanel (slotBands g1 g2 g3 g4 g5 q1 q2 q3 q4 q5) f =
      specAggregate g1 g2 g3 g4 g5 q1 q2 q3 q4 q5 f := by
  have e400 := octaves_eq hf (show (0 : ℝ) < 400 by norm_num)
  have e1000 := octaves_eq hf (show (0 : ℝ) < 1000 by norm_num)
  have e2500 := octaves_eq hf (show (0 : ℝ) < 2500 by norm_num)
  simp only [totalGain_SoundEQPanel, slotBands, List.foldl_cons, List.foldl_nil,
    bandGainAt_lowshelf, bandGainAt_highshelf, bandGainAt_peaking,
    specAggregate, specLowshelf, specHighshelf, specPeaking]
  rw [e400, e1000, e2500]
  ring

/-- Witness for C1 at concrete gains, Q = 1 and f = 100. -/
theorem c1_curve_matches_spec_witness :
    (0 : ℝ) < 100 ∧
    totalGain_SoundEQPanel (slotBands 1 2 3 4 5 1 1 1 1 1) 100 =
      specAggregate 1 2 3 4 5 1 1 1 1 1 100 :=
  ⟨by norm_num, c1_curve_matches_spec 1 2 3 4 5 1 1 1 1 1 100 (by norm_num)⟩

/-- `r ↦ r / (1 + r)` is strictly increasing on the nonnegative reals. -/
lemma shelf_base_mono {r1 r2 : ℝ} (h0 : 0 ≤ r1) (h12 : r1 < r2) :
    r1 / (1 + r1) < r2 / (1 + r2) := by
  have h1 : (0 : ℝ) < 1 + r1 := by linarith
  have h2 : (0 : ℝ) < 1 + r2 := by linarith
  rw [div_lt_div_iff₀ h1 h2]
  nlinarith

/-- C9: for `0 < f1 < f2` and a shelf band at `bf > 0`, the lowshelf
contribution is strictly decreasing and the highshelf contribution strictly
increasing in the evaluation frequency when the gain is positive, with both
orders reversed for a negative gain. -/
theorem c9_shelf_monotone (bf g q f1 f2 : ℝ) (hbf : 0 < bf) (hf1 : 0 < f1)
    (h12 : f1 < f2) :
    (0 < g →
      bandGainAt ⟨bf, g, q, .lowshelf⟩ f2 < bandGainAt ⟨bf, g, q, .lowshelf⟩ f1 ∧
      bandGainAt ⟨bf, g, q, .highshelf⟩ f1 < bandGainAt ⟨bf, g, q, .highshelf⟩ f2) ∧
    (g < 0 →
      bandGainAt ⟨bf, g, q, .lowshelf⟩ f1 < bandGainAt ⟨bf, g, q, .lowshelf⟩ f2 ∧
      bandGainAt ⟨bf, g, q, .highshelf⟩ f2 < bandGainAt ⟨bf, g, q, .highshelf⟩ f1) := by
  have hf2 : 0 < f2 := lt_trans hf1 h12
  have hlow : bf / f2 / (1 + bf / f2) < bf / f1 / (1 + bf / f1) :=
    shelf_base_mono (le_of_lt (div_pos hbf hf2)) (div_lt_div_of_pos_left hbf hf1 h12)
  have hhigh : f1 / bf / (1 + f1 / bf) < f2 / bf / (1 + f2 / bf) :=
    shelf_base_mono (le_of_lt (div_pos hf1 hbf)) ((div_lt_div_iff_of_pos_right hbf).mpr h12)
  constructor
  · intro hg
    constructor
    · simp only [bandGainAt_lowshelf, mul_div_assoc]
      exact mul_lt_mul_of_pos_left hlow hg
    · simp only [bandGainAt_highshelf, mul_div_assoc]
      exact mul_lt_mul_of_pos_left hhigh hg
  · intro hg
    constructor
    · simp only [bandGainAt_lowshelf, mul_div_assoc]
      exact mul_lt_mul_of_neg_left hlow hg
    · simp only [bandGainAt_highshelf, mul_div_assoc]
      exact mul_lt_mul_of_neg_left hhigh hg

/-- Witness for C9 at `bf = 100`, gains `6` and `-6`, `f1 = 50 < f2 = 200`. -/
theorem c9_shelf_monotone_witness :
    (0 : ℝ) < 100 ∧ (0 : ℝ) < 50 ∧ (50 : ℝ) < 200 ∧ (0 : ℝ) < 6 ∧ (-6 : ℝ) < 0 ∧
    (bandGainAt ⟨100, 6, 1, .lowshelf⟩ 200 < bandGainAt ⟨100, 6, 1, .lowshelf⟩ 50 ∧
      bandGainAt ⟨100, 6, 1, .highshelf⟩ 50 < bandGainAt ⟨100, 6, 1, .highshelf⟩ 200) ∧
    (bandGainAt ⟨100, -6, 1, .lowshelf⟩ 50 < bandGainAt ⟨100, -6, 1, .lowshelf⟩ 200 ∧
      bandGainAt ⟨100, -6, 1, .highshelf⟩ 200 < bandGainAt ⟨100, -6, 1, .highshelf⟩ 50) :=
  ⟨by norm_num, by norm_num, by norm_num, by norm_num, by norm_num,
   (c9_shelf_monotone 100 6 1 50 200 (by norm_num) (by norm_num) (by norm_num)).1
     (by norm_num),
   (c9_shelf_monotone 100 (-6) 1 50 200 (by norm_num) (by norm_num) (by norm_num)).2
     (by norm_num)⟩

/-- `1 + c / x` is nonzero for positive `c` and `x`. -/
lemma one_add_div_ne_zero (c : ℝ) (hc : 0 < c) (x : ℝ) (hx : 0 < x) :
    1 + c / x ≠ 0 := by
  have h : 0 < c / x := div_pos hc hx
  intro h0
  linarith

/-- C10: the per-pixel evaluation frequency is strictly positive, and on the
five fixed slots (Q = 1, any gains) every denominator of the curve
computation is nonzero, so the aggregate gain is well defined. -/
theorem c10_pixel_loop_total (px width : ℕ) (g1 g2 g3 g4 g5 : ℝ)
    (hw : 0 < width) (hpx : px ≤ width) :
    0 < pixelFreq px width ∧ log10 2 ≠ 0 ∧
    ∀ b ∈ slotBands g1 g2 g3 g4 g5 1 1 1 1 1,
      0 < b.frequency ∧ 0 < b.Q ∧
      1 + b.frequency / pixelFreq px width ≠ 0 ∧
      1 + pixelFreq px width / b.frequency ≠ 0 ∧
      b.frequency / b.Q / b.frequency ≠ 0 := by
  have hp : 0 < pixelFreq px width := Real.rpow_pos_of_pos (by norm_num) _
  have hl2 : 0 < log10 2 := Real.logb_pos (by norm_num) (by norm_num)
  refine ⟨hp, ne_of_gt hl2, ?_⟩
  intro b hb
  simp only [slotBands, List.mem_cons, List.not_mem_nil, or_false] at hb
  rcases hb with rfl | rfl | rfl | rfl | rfl
  · exact ⟨by norm_num, by norm_num, one_add_div_ne_zero 100 (by norm_num) _ hp,
      one_add_div_ne_zero _ hp 100 (by norm_num), by norm_num⟩
  · exact ⟨by norm_num, by norm_num, one_add_div_ne_zero 400 (by norm_num) _ hp,
      one_add_div_ne_zero _ hp 400 (by norm_num), by norm_num⟩
  · exact ⟨by norm_num, by norm_num, one_add_div_ne_zero 1000 (by norm_num) _ hp,
      one_add_div_ne_zero _ hp 1000 (by norm_num), by norm_num⟩
  · exact ⟨by norm_num, by norm_num, one_add_div_ne_zero 2500 (by norm_num) _ hp,
      one_add_div_ne_zero _ hp 2500 (by norm_num), by norm_num⟩
  · exact ⟨by norm_num, by norm_num, one_add_div_ne_zero 8000 (by norm_num) _ hp,
      one_add_div_ne_zero _ hp 8000 (by norm_num), by norm_num⟩

/-- Witness for C10 at pixel 0 of a 300-pixel-wide canvas. -/
theorem c10_pixel_loop_total_witness :
    0 < 300 ∧ (0 : ℕ) ≤ 300 ∧
    (0 < pixelFreq 0 300 ∧ log10 2 ≠ 0 ∧
      ∀ b ∈ slotBands (0 : ℝ) 0 0 0 0 1 1 1 1 1,
        0 < b.frequency ∧ 0 < b.Q ∧
        1 + b.frequency / pixelFreq 0 300 ≠ 0 ∧
        1 + pixelFreq 0 300 / b.frequency ≠ 0 ∧
        b.frequency / b.Q / b.frequency ≠ 0) :=
  ⟨by norm_num, by norm_num,
   c10_pixel_loop_total 0 300 0 0 0 0 0 (by norm_num) (by norm_num)⟩

/-- `exp (-0.5 x²) ≤ 1/9` once `x ≥ 4`. -/
lemma exp_bound_of_four {x : ℝ} (hx : 4 ≤ x) : Real.exp (-0.5 * x ^ 2) ≤ 1 / 9 := by
  have h1 : (8 : ℝ) ≤ 0.5 * x ^ 2 := by nlinarith
  have h2 : Real.exp (-0.5 * x ^ 2) ≤ Real.exp (-8) := by
    apply Real.exp_le_exp.mpr; linarith
  have h3 : (9 : ℝ) ≤ Real.exp 8 := by
    have h := Real.add_one_le_exp (8 : ℝ); linarith
  have h4 : Real.exp (-8) ≤ 1 / 9 := by
    rw [Real.exp_neg, show (1 : ℝ) / 9 = 9⁻¹ by norm_num]
    exact inv_anti₀ (by norm_num) h3
  linarith

/-- `log2 x ≥ 4` once `x ≥ 16`. -/
lemma logb2_ge_four {x : ℝ} (hx : 16 ≤ x) : 4 ≤ Real.logb 2 x := by
  have h16 : Real.logb 2 16 = 4 := by
    rw [show (16 : ℝ) = 2 ^ (4 : ℕ) by norm_num, Real.logb_pow,
      Real.logb_self_eq_one (by norm_num)]
    norm_num
  calc (4 : ℝ) = Real.logb 2 16 := h16.symm
    _ ≤ Real.logb 2 x := Real.logb_le_logb_of_le (by norm_num) (by norm_num) hx

/-- C4: with the Bass Boost preset gains `[6, 3, 0, -2, -2]` applied to the
five fixed slots (all Q = 1), the curve code's aggregate response at 100 Hz
strictly exceeds its aggregate response at 8000 Hz. -/
theorem c4_bass_boost_low_over_high :
    totalGain_SoundEQPanel (applyPresetLocal defaultBands [6, 3, 0, -2, -2]) 8000 <
      totalGain_SoundEQPanel (applyPresetLocal defaultBands [6, 3, 0, -2, -2]) 100 := by
  have hbb : applyPresetLocal defaultBands [(6 : ℝ), 3, 0, -2, -2] =
      slotBands 6 3 0 (-2) (-2) 1 1 1 1 1 := rfl
  rw [hbb]
  have hsum100 : totalGain_SoundEQPanel (slotBands 6 3 0 (-2) (-2) 1 1 1 1 1) 100 =
      bandGainAt ⟨100, 6, 1, .lowshelf⟩ 100 + bandGainAt ⟨400, 3, 1, .peaking⟩ 100 +
        bandGainAt ⟨1000, 0, 1, .peaking⟩ 100 + bandGainAt ⟨2500, -2, 1, .peaking⟩ 100 +
        bandGainAt ⟨8000, -2, 1, .highshelf⟩ 100 := by
    simp only [totalGain_SoundEQPanel, slotBands, List.foldl_cons, List.foldl_nil, zero_add]
  have hsum8000 : totalGain_SoundEQPanel (slotBands 6 3 0 (-2) (-2) 1 1 1 1 1) 8000 =
      bandGainAt ⟨100, 6, 1, .lowshelf⟩ 8000 + bandGainAt ⟨400, 3, 1, .peaking⟩ 8000 +
        bandGainAt ⟨1000, 0, 1, .peaking⟩ 8000 + bandGainAt ⟨2500, -2, 1, .peaking⟩ 8000 +
        bandGainAt ⟨8000, -2, 1, .highshelf⟩ 8000 := by
    simp only [totalGain_SoundEQPanel, slotBands, List.foldl_cons, List.foldl_nil, zero_add]
  have hA : bandGainAt ⟨100, 6, 1, .lowshelf⟩ 100 = 3 := by
    rw [bandGainAt_lowshelf]; norm_num
  have hB : 0 ≤ bandGainAt ⟨400, 3, 1, .peaking⟩ 100 := by
    rw [bandGainAt_peaking]; positivity
  have hC : bandGainAt ⟨1000, 0, 1, .peaking⟩ 100 = 0 := by
    rw [bandGainAt_peaking]; simp
  have hD : -(2 / 9) ≤ bandGainAt ⟨2500, -2, 1, .peaking⟩ 100 := by
    rw [bandGainAt_peaking, show (2500 : ℝ) / 1 / 2500 = 1 by norm_num, div_one,
      octaves_eq (show (0 : ℝ) < 100 by norm_num) (show (0 : ℝ) < 2500 by norm_num)]
    have hoct : 4 ≤ |Real.logb 2 ((100 : ℝ) / 2500)| := by
      rw [show (100 : ℝ) / 2500 = ((25 : ℝ))⁻¹ by norm_num, Real.logb_inv, abs_neg]
      exact le_trans (logb2_ge_four (by norm_num)) (le_abs_self _)
    have hexp := exp_bound_of_four hoct
    linarith
  have hE : bandGainAt ⟨8000, -2, 1, .highshelf⟩ 100 = -(2 / 81) := by
    rw [bandGainAt_highshelf]; norm_num
  have hA' : bandGainAt ⟨100, 6, 1, .lowshelf⟩ 8000 = 2 / 27 := by
    rw [bandGainAt_lowshelf]; norm_num
  have hB' : bandGainAt ⟨400, 3, 1, .peaking⟩ 8000 ≤ 1 / 3 := by
    rw [bandGainAt_peaking, show (400 : ℝ) / 1 / 400 = 1 by norm_num, div_one,
      octaves_eq (show (0 : ℝ) < 8000 by norm_num) (show (0 : ℝ) < 400 by norm_num)]
    have hoct : 4 ≤ |Real.logb 2 ((8000 : ℝ) / 400)| := by
      rw [show (8000 : ℝ) / 400 = 20 by norm_num]
      exact le_trans (logb2_ge_four (by norm_num)) (le_abs_self _)
    have hexp := exp_bound_of_four hoct
    linarith
  have hC' : bandGainAt ⟨1000, 0, 1, .peaking⟩ 8000 = 0 := by
    rw [bandGainAt_peaking]; simp
  have hD' : bandGainAt ⟨2500, -2, 1, .peaking⟩ 8000 ≤ 0 := by
    rw [bandGainAt_peaking]
    have hp := Real.exp_pos
      (-0.5 * ((|log10 8000 - log10 2500| / log10 2) / ((2500 : ℝ) / 1 / 2500)) ^ 2)
    nlinarith
  have hE' : bandGainAt ⟨8000, -2, 1, .highshelf⟩ 8000 = -1 := by
    rw [bandGainAt_highshelf]; norm_num
  rw [hsum100, hsum8000]
  linarith

end LofiFlow
